import Mathlib

/-!
Shallow embedding of the ledger-consistency core of the loyalty platform
(`apps/api/src/app.ts` together with the schema and triggers of
`packages/db/migrations/001_init.sql`).

Identifiers (uuids in the database) are modelled as `Nat`; `timestamptz`
values as `Nat` ticks; the `numeric` columns (`points_per_dollar`,
`promo_multiplier`) and the request `amount` carry their exact decimal
values as rationals `ℚ`, and the handler's JavaScript number arithmetic
on them is modelled faithfully: `float64Round` rounds a rational to the
IEEE-754 binary64 grid (round-to-nearest, ties-to-even) and `jsMul`
composes it with the exact product, so the points computation reproduces
the double-precision results of the running program.
A database snapshot is a `DB` record of the relevant tables; every
handler is a function `DB → Except ApiErr (result × DB)`: an `Except.error`
result corresponds to the handler throwing, in which case the surrounding
transaction is rolled back, so no new state is produced.

Operations are modelled post token-resolution: the handlers first resolve
`public_token` to a `(merchant_id, customer_id)` pair; the core receives
the resolved pair, exactly as §6 of the design documents describes.
-/

namespace Loyalty

/-- Column `ledger_entries.type CHECK (type IN ('earn','redeem','adjust','reversal','expire'))`. -/
inductive EntryType
  | earn
  | redeem
  | adjust
  | reversal
  | expire
deriving DecidableEq, Repr

/-- Column `ledger_entries.source CHECK (source IN ('terminal','pos','admin'))`. -/
inductive EntrySource
  | terminal
  | pos
  | admin
deriving DecidableEq, Repr

/-- Column `loyalty_rules_versions.rounding CHECK (rounding IN ('floor','nearest'))`. -/
inductive Rounding
  | floor
  | nearest
deriving DecidableEq, Repr

/-- Column `redemptions.status CHECK (status IN ('approved','reversed'))`. -/
inductive RedemptionStatus
  | approved
  | reversed
deriving DecidableEq, Repr

/-- A row of `loyalty_rules_versions`. -/
structure RuleVersion where
  id : Nat
  merchantId : Nat
  version : Nat
  pointsPerDollar : ℚ
  rounding : Rounding
  promoMultiplier : ℚ
  activeFrom : Nat
deriving DecidableEq, Repr

/-- A row of `ledger_entries`. -/
structure LedgerEntry where
  id : Nat
  merchantId : Nat
  customerId : Nat
  type : EntryType
  pointsDelta : Int
  source : EntrySource
  externalId : Option Nat
  rulesVersionId : Option Nat
  idempotencyKey : String
  createdAt : Nat
deriving DecidableEq, Repr

/-- A row of `rewards`. -/
structure Reward where
  id : Nat
  merchantId : Nat
  name : String
  pointsCost : Int
  active : Bool
deriving DecidableEq, Repr

/-- A row of `redemptions`. -/
structure Redemption where
  id : Nat
  merchantId : Nat
  customerId : Nat
  rewardId : Nat
  pointsCost : Int
  status : RedemptionStatus
deriving DecidableEq, Repr

/-- A row of `audit_logs` (the fields the core writes via `logAudit`). -/
structure AuditLog where
  merchantId : Nat
  action : String
  targetType : String
  targetId : Nat
deriving DecidableEq, Repr

/-- The relational state the core reads and writes.  `now` is the clock
(`now()` in SQL, also used as `created_at` of inserted rows); `nextId`
feeds the id generators (`gen_random_uuid()` / `crypto.randomUUID()`).
Committing a transaction advances the clock.  New ledger rows are
consed at the head of `ledger`. -/
structure DB where
  ledger : List LedgerEntry
  redemptions : List Redemption
  audits : List AuditLog
  rules : List RuleVersion
  rewards : List Reward
  now : Nat
  nextId : Nat
deriving DecidableEq, Repr

/-- Query `SELECT ... FROM ledger_entries WHERE merchant_id = $1 AND
idempotency_key = $2 LIMIT 1` — the lookup behind the unique constraint
`ledger_entries_merchant_idempotency_uq` and the replay branch. -/
def findIdem (ledger : List LedgerEntry) (m : Nat) (key : String) :
    Option LedgerEntry :=
  ledger.find? (fun e => e.merchantId == m && e.idempotencyKey == key)

/-- Number of ledger rows carrying a given `(merchant_id, idempotency_key)`. -/
def countIdem (ledger : List LedgerEntry) (m : Nat) (key : String) : Nat :=
  (ledger.filter (fun e => e.merchantId == m && e.idempotencyKey == key)).length

/-- Query `SELECT COALESCE(SUM(points_delta), 0)::int AS balance FROM
ledger_entries WHERE merchant_id = $1 AND customer_id = $2`. -/
def balanceOf (ledger : List LedgerEntry) (m c : Nat) : Int :=
  ((ledger.filter (fun e => e.merchantId == m && e.customerId == c)).map
    (fun e => e.pointsDelta)).sum

/-- The `GET /customers/:id/balance` read model (app.ts:1159-1168). -/
def getBalance (db : DB) (m c : Nat) : Int :=
  balanceOf db.ledger m c

/-- Clause `ORDER BY version DESC LIMIT 1` over a candidate list: keep the row
with the largest `version`. -/
def pickHighest : Option RuleVersion → List RuleVersion → Option RuleVersion
  | acc, [] => acc
  | none, r :: rs => pickHighest (some r) rs
  | some best, r :: rs =>
      pickHighest (if best.version < r.version then some r else some best) rs

/-- Query `SELECT ... FROM loyalty_rules_versions WHERE merchant_id = $1 AND
active_from <= now() ORDER BY version DESC LIMIT 1` (app.ts:895-907). -/
def resolveActiveRule (rules : List RuleVersion) (m asOf : Nat) :
    Option RuleVersion :=
  pickHighest none
    (rules.filter (fun r => r.merchantId == m && decide (r.activeFrom ≤ asOf)))

/-- JavaScript `Math.round`: the integer closest to the argument, ties
toward positive infinity, i.e. `⌊q + 1/2⌋` evaluated exactly, per the
ECMAScript specification of `Math.round`. -/
def jsRound (q : ℚ) : Int :=
  ⌊q + 1 / 2⌋

/-- Round-half-to-even to an integer — the tie rule of IEEE-754
round-to-nearest. -/
def rnhe (x : ℚ) : ℤ :=
  if x - ⌊x⌋ < 1 / 2 then ⌊x⌋
  else if 1 / 2 < x - ⌊x⌋ then ⌊x⌋ + 1
  else if 2 ∣ ⌊x⌋ then ⌊x⌋ else ⌊x⌋ + 1

/-- IEEE-754 binary64 ("JavaScript number") rounding of an exact
rational, with unbounded exponent range: a non-zero magnitude with
`2 ^ e ≤ |q| < 2 ^ (e + 1)` is rounded half-to-even onto the grid of
spacing `2 ^ (e - 52)` (53 significant bits).  This agrees with IEEE-754
binary64 everywhere in its normal range, which covers every value the
handlers compute with. -/
def float64Round (q : ℚ) : ℚ :=
  if q = 0 then 0
  else if q < 0 then
    -((rnhe ((-q) / 2 ^ (Int.log 2 (-q) - 52)) : ℚ) * 2 ^ (Int.log 2 (-q) - 52))
  else (rnhe (q / 2 ^ (Int.log 2 q - 52)) : ℚ) * 2 ^ (Int.log 2 q - 52)

/-- JavaScript `*` on doubles: the exact product, rounded to binary64. -/
def jsMul (a b : ℚ) : ℚ :=
  float64Round (a * b)

/-- app.ts:913-914:
`rawPoints = Number(rules.points_per_dollar) * Number(rules.promo_multiplier) * input.amount;`
evaluated left-to-right in double arithmetic.  The operands are doubles
already: `Number(...)` parses the NUMERIC column's decimal string to the
nearest double, and `input.amount` was produced by the runtime's JSON
parse of a decimal literal — both modelled by `float64Round` of the
exact decimal value. -/
def rawPoints (amount : ℚ) (r : RuleVersion) : ℚ :=
  jsMul (jsMul (float64Round r.pointsPerDollar) (float64Round r.promoMultiplier))
    (float64Round amount)

/-- app.ts:915-916:
`points = rules.rounding === "nearest" ? Math.round(rawPoints) : Math.floor(rawPoints);`. -/
def computePoints (amount : ℚ) (r : RuleVersion) : Int :=
  match r.rounding with
  | .nearest => jsRound (rawPoints amount r)
  | .floor => ⌊rawPoints amount r⌋

/-- Error kinds the core raises (`ApiError` codes in app.ts). -/
inductive ApiErr
  | notFound
  | rulesMissing
  | insufficientPoints
  | idempotentReplay
deriving DecidableEq, Repr

/-- The handler for `GET /customers/:id/balance` contains no existence
check and no throw path of its own: it always answers with the coalesced
sum (app.ts:1159-1168). -/
def getBalanceHandler (db : DB) (m c : Nat) : Except ApiErr Int :=
  .ok (getBalance db m c)

/-- The conflict-resolution step shared by the earn and adjust handlers
(app.ts:929-942 and 765-777): use the id returned by the guarded insert
when it succeeded; otherwise mark the call idempotent and use the id
found by the follow-up lookup; if that lookup finds nothing, throw
`ApiError(409, "IDEMPOTENT_REPLAY", "Idempotency conflict")`. -/
def resolveIdempotent (inserted : Option Nat) (existing : Option Nat) :
    Except ApiErr (Nat × Bool) :=
  match inserted with
  | some entryId => .ok (entryId, false)
  | none =>
      match existing with
      | some entryId => .ok (entryId, true)
      | none => .error .idempotentReplay

/-- The redeem handler's variant of the conflict-resolution step
(app.ts:1041-1056): on a replay it additionally recovers the original
redemption reference from the existing entry's `external_id`, falling
back to the freshly generated id when that column is null. -/
def resolveRedeemIdempotent (inserted : Option Nat)
    (existing : Option (Nat × Option Nat)) (freshRedemptionId : Nat) :
    Except ApiErr (Nat × Nat × Bool) :=
  match inserted with
  | some entryId => .ok (entryId, freshRedemptionId, false)
  | none =>
      match existing with
      | some (entryId, extId) => .ok (entryId, extId.getD freshRedemptionId, true)
      | none => .error .idempotentReplay

/-- Response body of `POST /earn`. -/
structure EarnResult where
  ledgerEntryId : Nat
  balance : Int
  pointsDelta : Int
  idempotent : Bool
deriving DecidableEq, Repr

/-- Response body of `POST /adjust`. -/
structure AdjustResult where
  ledgerEntryId : Nat
  balance : Int
  idempotent : Bool
deriving DecidableEq, Repr

/-- Response body of `POST /redeem`. -/
structure RedeemResult where
  redemptionId : Nat
  balance : Int
  idempotent : Bool
deriving DecidableEq, Repr

/-- Handler `POST /earn` (app.ts:884-960), after token resolution: resolve the
active rule (409 RULES_MISSING when none), compute the points, attempt
the insert guarded by `ON CONFLICT (merchant_id, idempotency_key) DO
NOTHING`, resolve replays, and answer with the fresh coalesced sum. -/
def earn (db : DB) (m c : Nat) (amount : ℚ) (key : String) :
    Except ApiErr (EarnResult × DB) :=
  match resolveActiveRule db.rules m db.now with
  | none => .error .rulesMissing
  | some rules =>
      let points := computePoints amount rules
      let inserted : Option LedgerEntry :=
        match findIdem db.ledger m key with
        | some _ => none
        | none =>
            some
              { id := db.nextId, merchantId := m, customerId := c,
                type := .earn, pointsDelta := points, source := .terminal,
                externalId := none, rulesVersionId := some rules.id,
                idempotencyKey := key, createdAt := db.now }
      let ledger1 :=
        match inserted with
        | some e => e :: db.ledger
        | none => db.ledger
      match resolveIdempotent (inserted.map (fun e => e.id))
          ((findIdem ledger1 m key).map (fun e => e.id)) with
      | .error err => .error err
      | .ok (entryId, idem) =>
          .ok
            ({ ledgerEntryId := entryId, balance := balanceOf ledger1 m c,
               pointsDelta := points, idempotent := idem },
             { db with
                ledger := ledger1,
                nextId := match inserted with
                  | some _ => db.nextId + 1
                  | none => db.nextId,
                now := db.now + 1 })

/-- Handler `POST /adjust` (app.ts:737-810), after token resolution: the same
idempotency-guarded append with type `adjust` and source `admin`; the
audit record `adjustment_created` is written on both the fresh and the
replay path, then the fresh coalesced sum is returned. -/
def adjust (db : DB) (m c : Nat) (delta : Int) (key : String) :
    Except ApiErr (AdjustResult × DB) :=
  let inserted : Option LedgerEntry :=
    match findIdem db.ledger m key with
    | some _ => none
    | none =>
        some
          { id := db.nextId, merchantId := m, customerId := c,
            type := .adjust, pointsDelta := delta, source := .admin,
            externalId := none, rulesVersionId := none,
            idempotencyKey := key, createdAt := db.now }
  let ledger1 :=
    match inserted with
    | some e => e :: db.ledger
    | none => db.ledger
  match resolveIdempotent (inserted.map (fun e => e.id))
      ((findIdem ledger1 m key).map (fun e => e.id)) with
  | .error err => .error err
  | .ok (entryId, idem) =>
      .ok
        ({ ledgerEntryId := entryId, balance := balanceOf ledger1 m c,
           idempotent := idem },
         { db with
            ledger := ledger1,
            audits :=
              { merchantId := m, action := "adjustment_created",
                targetType := "ledger_entry", targetId := entryId } :: db.audits,
            nextId := match inserted with
              | some _ => db.nextId + 1
              | none => db.nextId,
            now := db.now + 1 })

/-- Query `SELECT id, points_cost FROM rewards WHERE id = $1 AND merchant_id =
$2 AND active = true LIMIT 1` (app.ts:1007-1013). -/
def findReward (rewards : List Reward) (m rid : Nat) : Option Reward :=
  rewards.find? (fun r => r.id == rid && r.merchantId == m && r.active)

/-- Handler `POST /redeem` (app.ts:989-1094), after token resolution and inside
the transaction that holds the `FOR UPDATE` customer-row lock: look up
the reward (404 when absent, inactive or foreign), read the balance,
throw 409 INSUFFICIENT_POINTS when it does not cover the cost, then
perform the guarded ledger insert with delta `-points_cost` and
`external_id` the freshly generated redemption id; on a fresh insert
also create the paired `redemptions` row and the `redemption_created`
audit record; answer with the fresh coalesced sum. -/
def redeem (db : DB) (m c : Nat) (rid : Nat) (key : String) :
    Except ApiErr (RedeemResult × DB) :=
  match findReward db.rewards m rid with
  | none => .error .notFound
  | some reward =>
      let bal := balanceOf db.ledger m c
      if bal < reward.pointsCost then
        .error .insufficientPoints
      else
        let redemptionId := db.nextId
        let inserted : Option LedgerEntry :=
          match findIdem db.ledger m key with
          | some _ => none
          | none =>
              some
                { id := db.nextId + 1, merchantId := m, customerId := c,
                  type := .redeem, pointsDelta := -reward.pointsCost,
                  source := .terminal, externalId := some redemptionId,
                  rulesVersionId := none, idempotencyKey := key,
                  createdAt := db.now }
        let ledger1 :=
          match inserted with
          | some e => e :: db.ledger
          | none => db.ledger
        match resolveRedeemIdempotent (inserted.map (fun e => e.id))
            ((findIdem ledger1 m key).map (fun e => (e.id, e.externalId)))
            redemptionId with
        | .error err => .error err
        | .ok (_, resolvedRedemptionId, idem) =>
            let redemptions1 :=
              if idem then db.redemptions
              else
                { id := redemptionId, merchantId := m, customerId := c,
                  rewardId := reward.id, pointsCost := reward.pointsCost,
                  status := .approved } :: db.redemptions
            let audits1 :=
              if idem then db.audits
              else
                { merchantId := m, action := "redemption_created",
                  targetType := "redemption",
                  targetId := redemptionId } :: db.audits
            .ok
              ({ redemptionId := resolvedRedemptionId,
                 balance := balanceOf ledger1 m c, idempotent := idem },
               { db with
                  ledger := ledger1, redemptions := redemptions1,
                  audits := audits1,
                  nextId := db.nextId + 2,
                  now := db.now + 1 })

/-- Clause `ORDER BY created_at DESC`: newer entries first. -/
def newerFirst (a b : LedgerEntry) : Prop :=
  b.createdAt ≤ a.createdAt

instance : DecidableRel newerFirst :=
  fun a b => Nat.decLe b.createdAt a.createdAt

instance : IsTotal LedgerEntry newerFirst :=
  ⟨fun a b => Nat.le_total b.createdAt a.createdAt⟩

instance : IsTrans LedgerEntry newerFirst :=
  ⟨fun _ _ _ hab hbc => Nat.le_trans hbc hab⟩

/-- Handler `GET /customers/:id/ledger` (app.ts:1121-1140):
`SELECT ... FROM ledger_entries WHERE merchant_id = $1 AND customer_id =
$2 ORDER BY created_at DESC LIMIT 100`. -/
def listLedger (db : DB) (m c : Nat) : List LedgerEntry :=
  (((db.ledger.filter (fun e => e.merchantId == m && e.customerId == c)).insertionSort
      newerFirst).take 100)

deriving instance DecidableEq for Except

/-- The ledger row `POST /earn` inserts on the fresh path. -/
def earnEntry (db : DB) (m c : Nat) (points : Int) (ruId : Nat)
    (key : String) : LedgerEntry :=
  { id := db.nextId, merchantId := m, customerId := c, type := .earn,
    pointsDelta := points, source := .terminal, externalId := none,
    rulesVersionId := some ruId, idempotencyKey := key, createdAt := db.now }

/-- The ledger row `POST /adjust` inserts on the fresh path. -/
def adjustEntry (db : DB) (m c : Nat) (delta : Int) (key : String) :
    LedgerEntry :=
  { id := db.nextId, merchantId := m, customerId := c, type := .adjust,
    pointsDelta := delta, source := .admin, externalId := none,
    rulesVersionId := none, idempotencyKey := key, createdAt := db.now }

/-- The ledger row `POST /redeem` inserts on the fresh path. -/
def redeemEntry (db : DB) (m c : Nat) (cost : Int) (key : String) :
    LedgerEntry :=
  { id := db.nextId + 1, merchantId := m, customerId := c, type := .redeem,
    pointsDelta := -cost, source := .terminal, externalId := some db.nextId,
    rulesVersionId := none, idempotencyKey := key, createdAt := db.now }

/-- The `redemptions` row `POST /redeem` inserts on the fresh path. -/
def redemptionRow (db : DB) (m c : Nat) (reward : Reward) : Redemption :=
  { id := db.nextId, merchantId := m, customerId := c, rewardId := reward.id,
    pointsCost := reward.pointsCost, status := .approved }

/-! ## Concrete fixtures

Small database snapshots used to instantiate the scenarios of the design
documents (scenario A: `points_per_dollar = 1`, `rounding = floor`,
`promo_multiplier = 1`, earn of 12.99; scenario B: balance 50 against a
reward costing 50). -/

/-- Scenario A's rule version. -/
def scenarioARule : RuleVersion :=
  { id := 7, merchantId := 0, version := 1, pointsPerDollar := 1,
    rounding := .floor, promoMultiplier := 1, activeFrom := 0 }

/-- A rule awarding 100 points per dollar with floor rounding — the rule
under which double arithmetic visibly diverges from exact arithmetic at
amount 0.29. -/
def cxRule : RuleVersion :=
  { id := 8, merchantId := 0, version := 1, pointsPerDollar := 100,
    rounding := .floor, promoMultiplier := 1, activeFrom := 0 }

/-- A customer (merchant 0, customer 0) who has earned 50 points. -/
def seedEntry50 : LedgerEntry :=
  { id := 0, merchantId := 0, customerId := 0, type := .earn,
    pointsDelta := 50, source := .terminal, externalId := none,
    rulesVersionId := none, idempotencyKey := "seed-0001", createdAt := 0 }

/-- A customer (merchant 0, customer 0) who has earned only 10 points. -/
def seedEntry10 : LedgerEntry :=
  { id := 0, merchantId := 0, customerId := 0, type := .earn,
    pointsDelta := 10, source := .terminal, externalId := none,
    rulesVersionId := none, idempotencyKey := "seed-0002", createdAt := 0 }

/-- A reward costing 50 points. -/
def coffeeReward : Reward :=
  { id := 1, merchantId := 0, name := "Free Coffee", pointsCost := 50,
    active := true }

/-- Scenario B: balance 50, one active reward costing 50. -/
def dbB : DB :=
  { ledger := [seedEntry50], redemptions := [], audits := [], rules := [],
    rewards := [coffeeReward], now := 1, nextId := 2 }

/-- Balance 10, one active reward costing 50. -/
def dbPoor : DB :=
  { ledger := [seedEntry10], redemptions := [], audits := [], rules := [],
    rewards := [coffeeReward], now := 1, nextId := 2 }

/-- Scenario A: no ledger entries yet and a single rule version. -/
def dbA : DB :=
  { ledger := [], redemptions := [], audits := [], rules := [scenarioARule],
    rewards := [], now := 1, nextId := 0 }

/-- The empty store. -/
def dbW : DB :=
  { ledger := [], redemptions := [], audits := [], rules := [],
    rewards := [], now := 0, nextId := 0 }

/-- The state after `adjust dbW 0 0 5 "key-0003"`. -/
def db1W : DB :=
  { ledger := [adjustEntry dbW 0 0 5 "key-0003"], redemptions := [],
    audits := [{ merchantId := 0, action := "adjustment_created",
                 targetType := "ledger_entry", targetId := 0 }],
    rules := [], rewards := [], now := 1, nextId := 1 }

/-- A newer ledger entry of customer 0 (created at tick 5). -/
def entryC9a : LedgerEntry :=
  { id := 0, merchantId := 0, customerId := 0, type := .earn,
    pointsDelta := 5, source := .terminal, externalId := none,
    rulesVersionId := none, idempotencyKey := "key-c9-a", createdAt := 5 }

/-- An older ledger entry of customer 0 (created at tick 3). -/
def entryC9b : LedgerEntry :=
  { id := 1, merchantId := 0, customerId := 0, type := .earn,
    pointsDelta := 7, source := .terminal, externalId := none,
    rulesVersionId := none, idempotencyKey := "key-c9-b", createdAt := 3 }

/-- Two ledger entries of the same customer. -/
def dbC9 : DB :=
  { ledger := [entryC9a, entryC9b], redemptions := [], audits := [],
    rules := [], rewards := [], now := 9, nextId := 2 }

/-! ## Supporting lemmas -/

theorem pickHighest_eq_none {l : List RuleVersion} {acc : Option RuleVersion} :
    pickHighest acc l = none ↔ acc = none ∧ l = [] := by
  induction l generalizing acc with
  | nil =>
      cases acc
      · simp [pickHighest]
      · simp [pickHighest]
  | cons r rs ih =>
      cases acc with
      | none =>
          simp only [pickHighest, ih]
          simp
      | some best =>
          simp only [pickHighest]
          by_cases h : best.version < r.version <;> simp [h, ih]

theorem pickHighest_mem {l : List RuleVersion} {acc : Option RuleVersion}
    {r : RuleVersion} (h : pickHighest acc l = some r) :
    acc = some r ∨ r ∈ l := by
  induction l generalizing acc with
  | nil =>
      cases acc
      · simp [pickHighest] at h
      · simp [pickHighest] at h
        simp [h]
  | cons x xs ih =>
      cases acc with
      | none =>
          rcases ih h with h' | h'
          · right; simp at h'; simp [h']
          · right; simp [h']
      | some best =>
          simp only [pickHighest] at h
          by_cases hv : best.version < x.version
          · rw [if_pos hv] at h
            rcases ih h with h' | h'
            · right; simp at h'; simp [h']
            · right; simp [h']
          · rw [if_neg hv] at h
            rcases ih h with h' | h'
            · left; exact h'
            · right; simp [h']

theorem pickHighest_max {l : List RuleVersion} {acc : Option RuleVersion}
    {r : RuleVersion} (h : pickHighest acc l = some r) :
    (∀ x ∈ l, x.version ≤ r.version) ∧
      (∀ a, acc = some a → a.version ≤ r.version) := by
  induction l generalizing acc with
  | nil =>
      cases acc <;> simp [pickHighest] at h
      constructor
      · intro x hx; cases hx
      · intro a ha
        rw [h] at ha
        cases ha
        exact le_refl _
  | cons x xs ih =>
      cases acc with
      | none =>
          obtain ⟨hall, hacc⟩ := ih h
          refine ⟨?_, by intro a ha; cases ha⟩
          intro y hy
          rcases List.mem_cons.mp hy with hy | hy
          · exact hy ▸ hacc x rfl
          · exact hall y hy
      | some best =>
          simp only [pickHighest] at h
          by_cases hv : best.version < x.version
          · rw [if_pos hv] at h
            obtain ⟨hall, hacc⟩ := ih h
            constructor
            · intro y hy
              rcases List.mem_cons.mp hy with hy | hy
              · exact hy ▸ hacc x rfl
              · exact hall y hy
            · intro a ha
              cases ha
              exact le_of_lt (lt_of_lt_of_le hv (hacc x rfl))
          · rw [if_neg hv] at h
            obtain ⟨hall, hacc⟩ := ih h
            constructor
            · intro y hy
              rcases List.mem_cons.mp hy with hy | hy
              · exact hy ▸ le_trans (le_of_not_lt hv) (hacc best rfl)
              · exact hall y hy
            · exact hacc

theorem resolveActiveRule_mem {rules : List RuleVersion} {m asOf : Nat}
    {r : RuleVersion} (h : resolveActiveRule rules m asOf = some r) :
    r ∈ rules ∧ r.merchantId = m ∧ r.activeFrom ≤ asOf := by
  rcases pickHighest_mem h with h' | h'
  · cases h'
  · have := List.mem_filter.mp h'
    simp only [Bool.and_eq_true, beq_iff_eq, decide_eq_true_eq] at this
    exact ⟨this.1, this.2.1, this.2.2⟩

theorem resolveActiveRule_max {rules : List RuleVersion} {m asOf : Nat}
    {r : RuleVersion} (h : resolveActiveRule rules m asOf = some r) :
    ∀ r' ∈ rules, r'.merchantId = m → r'.activeFrom ≤ asOf →
      r'.version ≤ r.version := by
  intro r' hmem hm ht
  refine (pickHighest_max h).1 r' ?_
  exact List.mem_filter.mpr ⟨hmem, by simp [hm, ht]⟩

theorem resolveActiveRule_mono {rules : List RuleVersion} {m t t' : Nat}
    {r : RuleVersion} (h : resolveActiveRule rules m t = some r)
    (htt : t ≤ t') : ∃ r', resolveActiveRule rules m t' = some r' := by
  obtain ⟨hmem, hm, ht⟩ := resolveActiveRule_mem h
  cases hr' : resolveActiveRule rules m t' with
  | some r' => exact ⟨r', rfl⟩
  | none =>
      exfalso
      have := (pickHighest_eq_none.mp hr').2
      rw [List.filter_eq_nil_iff] at this
      exact this r hmem (by simp [hm, le_trans ht htt])

theorem int_log_two_eq {q : ℚ} {e : ℤ} (hq : 0 < q)
    (h1 : (2 : ℚ) ^ e ≤ q) (h2 : q < 2 ^ (e + 1)) : Int.log 2 q = e := by
  have hb : (1 : ℕ) < 2 := one_lt_two
  have hle : e ≤ Int.log 2 q := by
    rw [← Int.zpow_le_iff_le_log hb hq]
    push_cast
    exact h1
  have hlt : Int.log 2 q < e + 1 := by
    rw [← Int.lt_zpow_iff_log_lt hb hq]
    push_cast
    exact h2
  omega

theorem float64Round_eq_of {q : ℚ} {e : ℤ} (hq : 0 < q)
    (h1 : (2 : ℚ) ^ e ≤ q) (h2 : q < 2 ^ (e + 1)) :
    float64Round q = (rnhe (q / 2 ^ (e - 52)) : ℚ) * 2 ^ (e - 52) := by
  rw [float64Round, if_neg (ne_of_gt hq), if_neg (not_lt.mpr (le_of_lt hq)),
    int_log_two_eq hq h1 h2]

theorem rnhe_nonneg {x : ℚ} (hx : 0 ≤ x) : 0 ≤ rnhe x := by
  have h0 : (0 : ℤ) ≤ ⌊x⌋ := Int.floor_nonneg.mpr hx
  unfold rnhe
  split_ifs <;> omega

theorem float64Round_nonneg {q : ℚ} (hq : 0 ≤ q) : 0 ≤ float64Round q := by
  rcases eq_or_lt_of_le hq with h | h
  · simp [float64Round, ← h]
  · rw [float64Round, if_neg (ne_of_gt h), if_neg (not_lt.mpr hq)]
    have h1 : (0 : ℤ) ≤ rnhe (q / 2 ^ (Int.log 2 q - 52)) :=
      rnhe_nonneg (by positivity)
    have h2 : (0 : ℚ) ≤ (rnhe (q / 2 ^ (Int.log 2 q - 52)) : ℚ) := by
      exact_mod_cast h1
    positivity

theorem f64_one : float64Round 1 = 1 := by
  rw [float64Round_eq_of (by norm_num) (by norm_num : (2 : ℚ) ^ (0 : ℤ) ≤ 1)
    (by norm_num : (1 : ℚ) < 2 ^ ((0 : ℤ) + 1))]
  rw [rnhe]
  norm_num

theorem f64_hundred : float64Round 100 = 100 := by
  rw [float64Round_eq_of (by norm_num) (by norm_num : (2 : ℚ) ^ (6 : ℤ) ≤ 100)
    (by norm_num : (100 : ℚ) < 2 ^ ((6 : ℤ) + 1))]
  rw [rnhe]
  norm_num

theorem f64_029 :
    float64Round (29 / 100) = 5224175567749775 / 18014398509481984 := by
  rw [float64Round_eq_of (by norm_num)
    (by norm_num : (2 : ℚ) ^ (-2 : ℤ) ≤ 29 / 100)
    (by norm_num : (29 / 100 : ℚ) < 2 ^ ((-2 : ℤ) + 1))]
  have hx : (29 / 100 : ℚ) / 2 ^ ((-2 : ℤ) - 52) = 130604389193744384 / 25 := by
    norm_num
  rw [hx, rnhe]
  norm_num

theorem f64_1299 :
    float64Round (1299 / 100) = 7312719894942843 / 562949953421312 := by
  rw [float64Round_eq_of (by norm_num)
    (by norm_num : (2 : ℚ) ^ (3 : ℤ) ≤ 1299 / 100)
    (by norm_num : (1299 / 100 : ℚ) < 2 ^ ((3 : ℤ) + 1))]
  have hx : (1299 / 100 : ℚ) / 2 ^ ((3 : ℤ) - 52) = 182817997373571072 / 25 := by
    norm_num
  rw [hx, rnhe]
  norm_num

theorem rawPoints_cx :
    rawPoints (29 / 100) cxRule = 8162774324609023 / 281474976710656 := by
  rw [rawPoints]
  rw [show cxRule.pointsPerDollar = 100 from rfl,
    show cxRule.promoMultiplier = 1 from rfl, f64_hundred, f64_one, f64_029]
  rw [show jsMul 100 1 = float64Round 100 from by rw [jsMul]; norm_num,
    f64_hundred]
  rw [jsMul]
  rw [show (100 : ℚ) * (5224175567749775 / 18014398509481984)
      = 130604389193744375 / 4503599627370496 from by norm_num]
  rw [float64Round_eq_of (by norm_num)
    (by norm_num : (2 : ℚ) ^ (4 : ℤ) ≤ 130604389193744375 / 4503599627370496)
    (by norm_num :
      (130604389193744375 / 4503599627370496 : ℚ) < 2 ^ ((4 : ℤ) + 1))]
  rw [rnhe]
  norm_num

theorem rawPoints_scenarioA :
    rawPoints (1299 / 100) scenarioARule
      = 7312719894942843 / 562949953421312 := by
  rw [rawPoints]
  rw [show scenarioARule.pointsPerDollar = 1 from rfl,
    show scenarioARule.promoMultiplier = 1 from rfl, f64_one, f64_1299]
  rw [show jsMul 1 1 = float64Round 1 from by rw [jsMul]; norm_num, f64_one]
  rw [jsMul, one_mul]
  rw [float64Round_eq_of (by norm_num)
    (by norm_num : (2 : ℚ) ^ (3 : ℤ) ≤ 7312719894942843 / 562949953421312)
    (by norm_num :
      (7312719894942843 / 562949953421312 : ℚ) < 2 ^ ((3 : ℤ) + 1))]
  rw [rnhe]
  norm_num

theorem findIdem_cons_self {e : LedgerEntry} {l : List LedgerEntry}
    {m : Nat} {key : String} (hm : e.merchantId = m)
    (hk : e.idempotencyKey = key) : findIdem (e :: l) m key = some e := by
  unfold findIdem
  exact List.find?_cons_of_pos _ (by simp [hm, hk])

theorem countIdem_eq_zero {l : List LedgerEntry} {m : Nat} {key : String}
    (h : findIdem l m key = none) : countIdem l m key = 0 := by
  unfold findIdem at h
  rw [List.find?_eq_none] at h
  unfold countIdem
  rw [List.filter_eq_nil_iff.mpr h]
  rfl

theorem countIdem_cons_pos {e : LedgerEntry} {l : List LedgerEntry}
    {m : Nat} {key : String} (hm : e.merchantId = m)
    (hk : e.idempotencyKey = key) :
    countIdem (e :: l) m key = countIdem l m key + 1 := by
  unfold countIdem
  rw [List.filter_cons, if_pos (by simp [hm, hk])]
  simp [Nat.add_comm]

theorem earn_fresh {db : DB} {m c : Nat} {amount : ℚ} {key : String}
    {ru : RuleVersion} (hr : resolveActiveRule db.rules m db.now = some ru)
    (hfresh : findIdem db.ledger m key = none) :
    earn db m c amount key =
      .ok
        ({ ledgerEntryId := db.nextId,
           balance :=
             balanceOf
               (earnEntry db m c (computePoints amount ru) ru.id key :: db.ledger)
               m c,
           pointsDelta := computePoints amount ru, idempotent := false },
         { db with
            ledger := earnEntry db m c (computePoints amount ru) ru.id key :: db.ledger,
            nextId := db.nextId + 1, now := db.now + 1 }) := by
  simp [earn, hr, hfresh, resolveIdempotent, earnEntry]

theorem earn_replay {db : DB} {m c : Nat} {amount : ℚ} {key : String}
    {ru : RuleVersion} {e : LedgerEntry}
    (hr : resolveActiveRule db.rules m db.now = some ru)
    (hfound : findIdem db.ledger m key = some e) :
    earn db m c amount key =
      .ok
        ({ ledgerEntryId := e.id, balance := balanceOf db.ledger m c,
           pointsDelta := computePoints amount ru, idempotent := true },
         { db with now := db.now + 1 }) := by
  simp [earn, hr, hfound, resolveIdempotent]

theorem earn_rulesMissing {db : DB} {m c : Nat} {amount : ℚ} {key : String}
    (hr : resolveActiveRule db.rules m db.now = none) :
    earn db m c amount key = .error .rulesMissing := by
  simp [earn, hr]

theorem adjust_fresh {db : DB} {m c : Nat} {delta : Int} {key : String}
    (hfresh : findIdem db.ledger m key = none) :
    adjust db m c delta key =
      .ok
        ({ ledgerEntryId := db.nextId,
           balance := balanceOf (adjustEntry db m c delta key :: db.ledger) m c,
           idempotent := false },
         { db with
            ledger := adjustEntry db m c delta key :: db.ledger,
            audits :=
              { merchantId := m, action := "adjustment_created",
                targetType := "ledger_entry", targetId := db.nextId } :: db.audits,
            nextId := db.nextId + 1, now := db.now + 1 }) := by
  simp [adjust, hfresh, resolveIdempotent, adjustEntry]

theorem adjust_replay {db : DB} {m c : Nat} {delta : Int} {key : String}
    {e : LedgerEntry} (hfound : findIdem db.ledger m key = some e) :
    adjust db m c delta key =
      .ok
        ({ ledgerEntryId := e.id, balance := balanceOf db.ledger m c,
           idempotent := true },
         { db with
            audits :=
              { merchantId := m, action := "adjustment_created",
                targetType := "ledger_entry", targetId := e.id } :: db.audits,
            now := db.now + 1 }) := by
  simp [adjust, hfound, resolveIdempotent]

theorem redeem_notFound {db : DB} {m c rid : Nat} {key : String}
    (h : findReward db.rewards m rid = none) :
    redeem db m c rid key = .error .notFound := by
  simp [redeem, h]

theorem redeem_insufficient {db : DB} {m c rid : Nat} {key : String}
    {reward : Reward} (h : findReward db.rewards m rid = some reward)
    (hbal : balanceOf db.ledger m c < reward.pointsCost) :
    redeem db m c rid key = .error .insufficientPoints := by
  simp [redeem, h, hbal]

theorem redeem_fresh {db : DB} {m c rid : Nat} {key : String}
    {reward : Reward} (h : findReward db.rewards m rid = some reward)
    (hbal : reward.pointsCost ≤ balanceOf db.ledger m c)
    (hfresh : findIdem db.ledger m key = none) :
    redeem db m c rid key =
      .ok
        ({ redemptionId := db.nextId,
           balance :=
             balanceOf (redeemEntry db m c reward.pointsCost key :: db.ledger) m c,
           idempotent := false },
         { db with
            ledger := redeemEntry db m c reward.pointsCost key :: db.ledger,
            redemptions := redemptionRow db m c reward :: db.redemptions,
            audits :=
              { merchantId := m, action := "redemption_created",
                targetType := "redemption", targetId := db.nextId } :: db.audits,
            nextId := db.nextId + 2, now := db.now + 1 }) := by
  simp [redeem, h, not_lt.mpr hbal, hfresh, resolveRedeemIdempotent,
    redeemEntry, redemptionRow]

theorem redeem_replay {db : DB} {m c rid : Nat} {key : String}
    {reward : Reward} {e : LedgerEntry}
    (h : findReward db.rewards m rid = some reward)
    (hbal : reward.pointsCost ≤ balanceOf db.ledger m c)
    (hfound : findIdem db.ledger m key = some e) :
    redeem db m c rid key =
      .ok
        ({ redemptionId := e.externalId.getD db.nextId,
           balance := balanceOf db.ledger m c, idempotent := true },
         { db with nextId := db.nextId + 2, now := db.now + 1 }) := by
  simp [redeem, h, not_lt.mpr hbal, hfound, resolveRedeemIdempotent]

/-! ## Claim theorems -/

/-- C4 counterexample: app.ts:913-916 computes the raw product in
IEEE-754 binary64 ("JavaScript number") arithmetic, so the points do
not always equal the floor of the exact product: at amount 0.29 with
`points_per_dollar = 100`, `multiplier = 1` and `floor` rounding, the
double product is 28.999999999999996447... and the handler computes 28
points, while the claimed `⌊amount * ppu * mult⌋` is 29. -/
theorem computePoints_float_cx :
    computePoints (29 / 100) cxRule = 28 ∧
    ⌊(29 / 100 : ℚ) * cxRule.pointsPerDollar * cxRule.promoMultiplier⌋ = 29 ∧
    computePoints (29 / 100) cxRule ≠
      ⌊(29 / 100 : ℚ) * cxRule.pointsPerDollar * cxRule.promoMultiplier⌋ := by
  have h28 : computePoints (29 / 100) cxRule = 28 := by
    show ⌊rawPoints (29 / 100) cxRule⌋ = 28
    rw [rawPoints_cx]
    norm_num
  have h29 : ⌊(29 / 100 : ℚ) * cxRule.pointsPerDollar *
      cxRule.promoMultiplier⌋ = 29 := by
    rw [show cxRule.pointsPerDollar = 100 from rfl,
      show cxRule.promoMultiplier = 1 from rfl]
    norm_num
  refine ⟨h28, h29, ?_⟩
  rw [h28, h29]
  omega

/-- C4 (amended): the points of an earn are computed from the IEEE-754
binary64 product `Number(points_per_dollar) * Number(promo_multiplier) *
amount` rather than from the exact product: under `floor` rounding they
are the floor of that double product, under `nearest` rounding a nearest
integer (within 1/2) of it; for positive amount and positive rule values
the result is a non-negative integer; the original exact-product reading
holds whenever no rounding occurs, i.e. when the operands and both
partial products are exactly representable doubles; and scenario A
(`points_per_dollar = 1`, `multiplier = 1`, `floor`, amount 12.99) still
yields 12 points. -/
theorem computePoints_spec (amount : ℚ) (r : RuleVersion)
    (hamt : 0 < amount) (hppd : 0 < r.pointsPerDollar)
    (hpm : 0 < r.promoMultiplier) :
    (r.rounding = .floor →
      computePoints amount r = ⌊rawPoints amount r⌋) ∧
    (r.rounding = .nearest →
      |(computePoints amount r : ℚ) - rawPoints amount r| ≤ 1 / 2) ∧
    0 ≤ computePoints amount r ∧
    (float64Round r.pointsPerDollar = r.pointsPerDollar →
      float64Round r.promoMultiplier = r.promoMultiplier →
      float64Round amount = amount →
      float64Round (r.pointsPerDollar * r.promoMultiplier) =
        r.pointsPerDollar * r.promoMultiplier →
      float64Round (r.pointsPerDollar * r.promoMultiplier * amount) =
        r.pointsPerDollar * r.promoMultiplier * amount →
      r.rounding = .floor →
      computePoints amount r =
        ⌊amount * r.pointsPerDollar * r.promoMultiplier⌋) ∧
    computePoints (1299 / 100) scenarioARule = 12 := by
  have hrawnn : 0 ≤ rawPoints amount r := by
    rw [rawPoints, jsMul, jsMul]
    refine float64Round_nonneg (mul_nonneg (float64Round_nonneg ?_) ?_)
    · exact mul_nonneg (float64Round_nonneg hppd.le) (float64Round_nonneg hpm.le)
    · exact float64Round_nonneg hamt.le
  refine ⟨?_, ?_, ?_, ?_, ?_⟩
  · intro hfl
    simp [computePoints, hfl]
  · intro hnr
    simp only [computePoints, hnr, jsRound]
    have h1 : ((⌊rawPoints amount r + 1 / 2⌋ : ℤ) : ℚ) ≤
        rawPoints amount r + 1 / 2 := Int.floor_le _
    have h2 : rawPoints amount r + 1 / 2 <
        ((⌊rawPoints amount r + 1 / 2⌋ : ℤ) : ℚ) + 1 :=
      Int.lt_floor_add_one _
    rw [abs_le]
    constructor
    · linarith
    · linarith
  · cases hrm : r.rounding with
    | floor =>
        simp only [computePoints, hrm]
        exact Int.floor_nonneg.mpr hrawnn
    | nearest =>
        simp only [computePoints, hrm, jsRound]
        exact Int.floor_nonneg.mpr (by linarith)
  · intro e1 e2 e3 e4 e5 hfl
    have hexact : rawPoints amount r =
        amount * r.pointsPerDollar * r.promoMultiplier := by
      simp only [rawPoints, jsMul, e1, e2, e3]
      rw [e4, e5]
      ring
    simp [computePoints, hfl, hexact]
  · show ⌊rawPoints (1299 / 100) scenarioARule⌋ = 12
    rw [rawPoints_scenarioA]
    norm_num

/-- Witness for C4 (amended) at `amount = 2` and scenario A's rule. -/
theorem computePoints_spec_witness :
    computePoints 2 scenarioARule = ⌊rawPoints 2 scenarioARule⌋ ∧
    (0 : Int) ≤ computePoints 2 scenarioARule :=
  have h := computePoints_spec 2 scenarioARule (by norm_num)
    (by norm_num [scenarioARule]) (by norm_num [scenarioARule])
  ⟨h.1 rfl, h.2.2.1⟩

/-- C8: in the conflict branch of every earn/redeem/adjust handler, a
rejected ledger insert whose follow-up lookup finds no existing entry is
surfaced as the fatal 409 `IDEMPOTENT_REPLAY` ("Idempotency conflict")
error, never as a success and never as a normal replay; a successful
lookup is a normal replay and a successful insert is a fresh write. -/
theorem idempotency_conflict_fatal (freshId entryId : Nat) :
    resolveIdempotent none none = .error .idempotentReplay ∧
    resolveRedeemIdempotent none none freshId = .error .idempotentReplay ∧
    (∀ r, resolveIdempotent none none ≠ .ok r) ∧
    (∀ r, resolveRedeemIdempotent none none freshId ≠ .ok r) ∧
    resolveIdempotent none (some entryId) = .ok (entryId, true) ∧
    resolveIdempotent (some entryId) none = .ok (entryId, false) := by
  refine ⟨rfl, rfl, ?_, ?_, rfl, rfl⟩
  · intro r h
    simp [resolveIdempotent] at h
  · intro r h
    simp [resolveRedeemIdempotent] at h

/-- C10: the balance read model never fails: for every customer
identifier — including one with no ledger entries under the requesting
merchant — the handler answers `ok` with the derived sum, which is 0
when no entry matches. -/
theorem getBalance_never_notFound (db : DB) (m c : Nat) :
    getBalanceHandler db m c = .ok (getBalance db m c) ∧
    ((∀ e ∈ db.ledger, ¬(e.merchantId = m ∧ e.customerId = c)) →
      getBalanceHandler db m c = .ok 0) := by
  refine ⟨rfl, fun h => ?_⟩
  have hnil : db.ledger.filter
      (fun e => e.merchantId == m && e.customerId == c) = [] :=
    List.filter_eq_nil_iff.mpr (by intro e he; simpa using h e he)
  simp [getBalanceHandler, getBalance, balanceOf, hnil]

/-- Witness for C10 at the empty store and a customer id that exists
nowhere. -/
theorem getBalance_never_notFound_witness :
    getBalanceHandler dbW 0 5 = .ok 0 :=
  (getBalance_never_notFound dbW 0 5).2 (by simp [dbW])

/-- C2 (scenario B): with balance 50 and an active reward costing 50,
the first redeem succeeds with returned balance 0 and is not a replay;
a second redeem of the same reward under a fresh idempotency key fails
with `INSUFFICIENT_POINTS`, and the ledger after the first redeem holds
exactly one `redeem` entry. -/
theorem scenarioB_second_redeem_insufficient :
    ((redeem dbB 0 0 1 "key-0001").map
        (fun p => (p.1.balance, p.1.idempotent)) = .ok ((0 : Int), false)) ∧
    ((redeem dbB 0 0 1 "key-0001").bind
        (fun p => redeem p.2 0 0 1 "key-0002") = .error .insufficientPoints) ∧
    ((redeem dbB 0 0 1 "key-0001").map
        (fun p =>
          (p.2.ledger.filter (fun e => e.type == EntryType.redeem)).length)
      = .ok 1) := by
  decide

/-- C9 counterexample: `listLedger` takes no caller-supplied limit — the
query is hard-wired to `LIMIT 100` — so with two entries it returns 2
rows, violating "at most `limit` entries" instantiated at limit 1. -/
theorem listLedger_fixed_limit_cx :
    (listLedger dbC9 0 0).length = 2 ∧
    ¬((listLedger dbC9 0 0).length ≤ 1) := by
  decide

/-- C9 (amended): `listLedger` returns ledger entries of exactly the
requested (merchant, customer), ordered newest first (descending
creation time), with at most 100 entries — the limit is the fixed
`LIMIT 100` of the query, not caller-supplied — and it returns all of
the customer's entries whenever they number at most 100. -/
theorem listLedger_spec (db : DB) (m c : Nat) :
    List.Sorted newerFirst (listLedger db m c) ∧
    (listLedger db m c).length ≤ 100 ∧
    (∀ e ∈ listLedger db m c,
      e.merchantId = m ∧ e.customerId = c ∧ e ∈ db.ledger) ∧
    (∀ e ∈ db.ledger, e.merchantId = m → e.customerId = c →
      (db.ledger.filter
        (fun x => x.merchantId == m && x.customerId == c)).length ≤ 100 →
      e ∈ listLedger db m c) := by
  refine ⟨?_, List.length_take_le _ _, ?_, ?_⟩
  · exact List.Pairwise.sublist (List.take_sublist _ _)
      (List.sorted_insertionSort newerFirst _)
  · intro e he
    have h1 : e ∈ (db.ledger.filter
        (fun x => x.merchantId == m && x.customerId == c)).insertionSort
          newerFirst :=
      (List.take_sublist _ _).subset he
    have h2 := (List.perm_insertionSort newerFirst _).mem_iff.mp h1
    have h3 := List.mem_filter.mp h2
    have h4 := h3.2
    simp only [Bool.and_eq_true, beq_iff_eq] at h4
    exact ⟨h4.1, h4.2, h3.1⟩
  · intro e he hm hc hlen
    have hmem : e ∈ db.ledger.filter
        (fun x => x.merchantId == m && x.customerId == c) :=
      List.mem_filter.mpr ⟨he, by simp [hm, hc]⟩
    have hperm := List.perm_insertionSort newerFirst
      (db.ledger.filter (fun x => x.merchantId == m && x.customerId == c))
    have hlen2 : ((db.ledger.filter
        (fun x => x.merchantId == m && x.customerId == c)).insertionSort
          newerFirst).length ≤ 100 := by
      rw [hperm.length_eq]
      exact hlen
    unfold listLedger
    rw [List.take_of_length_le hlen2]
    exact hperm.mem_iff.mpr hmem

/-- Witness for C9 (amended) at the two-entry fixture. -/
theorem listLedger_spec_witness : entryC9a ∈ listLedger dbC9 0 0 :=
  (listLedger_spec dbC9 0 0).2.2.2 entryC9a (by decide) rfl rfl (by decide)

/-- C3: the balance is derived: `getBalance` is exactly the sum of
`points_delta` over the customer's ledger entries, it is 0 for a
customer with no entries, and every balance an operation returns is the
derived sum over the operation's own resulting ledger — no operation
stores or adjusts a balance independently of the ledger. -/
theorem balance_derived_from_ledger (db : DB) (m c : Nat) (amount : ℚ)
    (delta : Int) (rid : Nat) (key : String) :
    getBalance db m c =
      ((db.ledger.filter (fun e => e.merchantId == m && e.customerId == c)).map
        (fun e => e.pointsDelta)).sum ∧
    ((∀ e ∈ db.ledger, ¬(e.merchantId = m ∧ e.customerId = c)) →
      getBalance db m c = 0) ∧
    (∀ res db1, earn db m c amount key = .ok (res, db1) →
      res.balance = getBalance db1 m c) ∧
    (∀ res db1, adjust db m c delta key = .ok (res, db1) →
      res.balance = getBalance db1 m c) ∧
    (∀ res db1, redeem db m c rid key = .ok (res, db1) →
      res.balance = getBalance db1 m c) := by
  refine ⟨rfl, ?_, ?_, ?_, ?_⟩
  · intro h
    have hnil : db.ledger.filter
        (fun e => e.merchantId == m && e.customerId == c) = [] :=
      List.filter_eq_nil_iff.mpr (by intro e he; simpa using h e he)
    simp [getBalance, balanceOf, hnil]
  · intro res db1 h
    cases hr : resolveActiveRule db.rules m db.now with
    | none =>
        rw [earn_rulesMissing hr] at h
        cases h
    | some ru =>
        cases hf : findIdem db.ledger m key with
        | none =>
            rw [earn_fresh hr hf] at h
            simp only [Except.ok.injEq, Prod.mk.injEq] at h
            obtain ⟨hres, hdb⟩ := h
            rw [← hres, ← hdb]
            rfl
        | some e =>
            rw [earn_replay hr hf] at h
            simp only [Except.ok.injEq, Prod.mk.injEq] at h
            obtain ⟨hres, hdb⟩ := h
            rw [← hres, ← hdb]
            rfl
  · intro res db1 h
    cases hf : findIdem db.ledger m key with
    | none =>
        rw [adjust_fresh hf] at h
        simp only [Except.ok.injEq, Prod.mk.injEq] at h
        obtain ⟨hres, hdb⟩ := h
        rw [← hres, ← hdb]
        rfl
    | some e =>
        rw [adjust_replay hf] at h
        simp only [Except.ok.injEq, Prod.mk.injEq] at h
        obtain ⟨hres, hdb⟩ := h
        rw [← hres, ← hdb]
        rfl
  · intro res db1 h
    cases hrw : findReward db.rewards m rid with
    | none =>
        rw [redeem_notFound hrw] at h
        cases h
    | some reward =>
        by_cases hbal : balanceOf db.ledger m c < reward.pointsCost
        · rw [redeem_insufficient hrw hbal] at h
          cases h
        · have hbal' := not_lt.mp hbal
          cases hf : findIdem db.ledger m key with
          | none =>
              rw [redeem_fresh hrw hbal' hf] at h
              simp only [Except.ok.injEq, Prod.mk.injEq] at h
              obtain ⟨hres, hdb⟩ := h
              rw [← hres, ← hdb]
              rfl
          | some e =>
              rw [redeem_replay hrw hbal' hf] at h
              simp only [Except.ok.injEq, Prod.mk.injEq] at h
              obtain ⟨hres, hdb⟩ := h
              rw [← hres, ← hdb]
              rfl

/-- Witness for C3 at the empty store. -/
theorem balance_derived_from_ledger_witness : getBalance dbW 0 0 = 0 :=
  (balance_derived_from_ledger dbW 0 0 2 5 1 "key-0003").2.1 (by simp [dbW])

/-- C7: ledger entries are immutable and the write path is append-only:
every successful earn, redeem or adjust leaves the prior ledger as a
suffix of the new one (it only conses new entries in front), so every
entry present before the operation is present and unchanged after it.
(The schema additionally installs `prevent_ledger_mutation` triggers
rejecting every UPDATE or DELETE on `ledger_entries`.) -/
theorem ledger_append_only (db : DB) (m c : Nat) (amount : ℚ)
    (delta : Int) (rid : Nat) (key : String) :
    (∀ res db1, earn db m c amount key = .ok (res, db1) →
      ∃ new, db1.ledger = new ++ db.ledger) ∧
    (∀ res db1, adjust db m c delta key = .ok (res, db1) →
      ∃ new, db1.ledger = new ++ db.ledger) ∧
    (∀ res db1, redeem db m c rid key = .ok (res, db1) →
      ∃ new, db1.ledger = new ++ db.ledger) := by
  refine ⟨?_, ?_, ?_⟩
  · intro res db1 h
    cases hr : resolveActiveRule db.rules m db.now with
    | none =>
        rw [earn_rulesMissing hr] at h
        cases h
    | some ru =>
        cases hf : findIdem db.ledger m key with
        | none =>
            rw [earn_fresh hr hf] at h
            simp only [Except.ok.injEq, Prod.mk.injEq] at h
            exact ⟨[earnEntry db m c (computePoints amount ru) ru.id key],
              by rw [← h.2]; rfl⟩
        | some e =>
            rw [earn_replay hr hf] at h
            simp only [Except.ok.injEq, Prod.mk.injEq] at h
            exact ⟨[], by rw [← h.2]; rfl⟩
  · intro res db1 h
    cases hf : findIdem db.ledger m key with
    | none =>
        rw [adjust_fresh hf] at h
        simp only [Except.ok.injEq, Prod.mk.injEq] at h
        exact ⟨[adjustEntry db m c delta key], by rw [← h.2]; rfl⟩
    | some e =>
        rw [adjust_replay hf] at h
        simp only [Except.ok.injEq, Prod.mk.injEq] at h
        exact ⟨[], by rw [← h.2]; rfl⟩
  · intro res db1 h
    cases hrw : findReward db.rewards m rid with
    | none =>
        rw [redeem_notFound hrw] at h
        cases h
    | some reward =>
        by_cases hbal : balanceOf db.ledger m c < reward.pointsCost
        · rw [redeem_insufficient hrw hbal] at h
          cases h
        · have hbal' := not_lt.mp hbal
          cases hf : findIdem db.ledger m key with
          | none =>
              rw [redeem_fresh hrw hbal' hf] at h
              simp only [Except.ok.injEq, Prod.mk.injEq] at h
              exact ⟨[redeemEntry db m c reward.pointsCost key],
                by rw [← h.2]; rfl⟩
          | some e =>
              rw [redeem_replay hrw hbal' hf] at h
              simp only [Except.ok.injEq, Prod.mk.injEq] at h
              exact ⟨[], by rw [← h.2]; rfl⟩

/-- Witness for C7: the adjust on the empty store appends one entry. -/
theorem ledger_append_only_witness :
    ∃ new, db1W.ledger = new ++ dbW.ledger :=
  (ledger_append_only dbW 0 0 2 5 1 "key-0003").2.1
    { ledgerEntryId := 0, balance := 5, idempotent := false } db1W (by decide)

/-- C5: the rule version an earn uses at evaluation time `now` is the
merchant's rule row of highest version among those with
`active_from ≤ now`; when no rule version is effective the earn fails
with `RULES_MISSING` and — the failing handler rolls its transaction
back — appends no ledger entry; a fresh (non-replayed) earn stamps the
inserted entry with the resolved rule's id and the points computed from
that rule. -/
theorem earn_rule_versioning (db : DB) (m c t : Nat) (amount : ℚ)
    (key : String) :
    (∀ r, resolveActiveRule db.rules m t = some r →
      r ∈ db.rules ∧ r.merchantId = m ∧ r.activeFrom ≤ t ∧
        ∀ r' ∈ db.rules, r'.merchantId = m → r'.activeFrom ≤ t →
          r'.version ≤ r.version) ∧
    (resolveActiveRule db.rules m db.now = none →
      earn db m c amount key = .error .rulesMissing) ∧
    (∀ res db1, earn db m c amount key = .ok (res, db1) →
      res.idempotent = false →
      ∃ ru, resolveActiveRule db.rules m db.now = some ru ∧
        ∃ e, db1.ledger = e :: db.ledger ∧ e.rulesVersionId = some ru.id ∧
          e.pointsDelta = computePoints amount ru) := by
  refine ⟨?_, earn_rulesMissing, ?_⟩
  · intro r hres
    obtain ⟨hmem, hm, ht⟩ := resolveActiveRule_mem hres
    exact ⟨hmem, hm, ht, resolveActiveRule_max hres⟩
  · intro res db1 h hidem
    cases hr : resolveActiveRule db.rules m db.now with
    | none =>
        rw [earn_rulesMissing hr] at h
        cases h
    | some ru =>
        cases hf : findIdem db.ledger m key with
        | none =>
            rw [earn_fresh hr hf] at h
            simp only [Except.ok.injEq, Prod.mk.injEq] at h
            refine ⟨ru, rfl, earnEntry db m c (computePoints amount ru) ru.id key,
              ?_, rfl, rfl⟩
            rw [← h.2]
        | some e =>
            rw [earn_replay hr hf] at h
            simp only [Except.ok.injEq, Prod.mk.injEq] at h
            rw [← h.1] at hidem
            cases hidem

/-- Witness for C5: the single configured rule is resolved on the
scenario-A store, and the empty store has no effective rule, so earn
answers `RULES_MISSING` there. -/
theorem earn_rule_versioning_witness :
    (scenarioARule ∈ dbA.rules ∧ scenarioARule.merchantId = 0 ∧
      scenarioARule.activeFrom ≤ 1) ∧
    earn dbW 0 0 2 "key-0005" = .error .rulesMissing :=
  have h := (earn_rule_versioning dbA 0 0 1 2 "key-0005").1 scenarioARule rfl
  ⟨⟨h.1, h.2.1, h.2.2.1⟩, (earn_rule_versioning dbW 0 0 0 2 "key-0005").2.1 rfl⟩

/-- C6: redeem is atomic: with an insufficient balance it fails with
`INSUFFICIENT_POINTS` and — the transaction being rolled back — performs
no writes; and whenever a fresh redeem ledger entry is created, the
paired `redemptions` row is created with it (same transaction), the two
referencing each other through the entry's `external_id`; a replayed
redeem creates neither. -/
theorem redeem_atomic (db : DB) (m c rid : Nat) (key : String) :
    (∀ reward, findReward db.rewards m rid = some reward →
      balanceOf db.ledger m c < reward.pointsCost →
      redeem db m c rid key = .error .insufficientPoints) ∧
    (∀ res db1, redeem db m c rid key = .ok (res, db1) →
      (res.idempotent = false →
        ∃ reward e red,
          findReward db.rewards m rid = some reward ∧
          db1.ledger = e :: db.ledger ∧ e.type = .redeem ∧
          e.pointsDelta = -reward.pointsCost ∧ e.externalId = some red.id ∧
          db1.redemptions = red :: db.redemptions ∧
          red.rewardId = reward.id ∧ red.pointsCost = reward.pointsCost ∧
          red.status = .approved ∧ red.id = res.redemptionId) ∧
      (res.idempotent = true →
        db1.ledger = db.ledger ∧ db1.redemptions = db.redemptions)) := by
  refine ⟨fun reward h hbal => redeem_insufficient h hbal, ?_⟩
  intro res db1 h
  cases hrw : findReward db.rewards m rid with
  | none =>
      rw [redeem_notFound hrw] at h
      cases h
  | some reward =>
      by_cases hbal : balanceOf db.ledger m c < reward.pointsCost
      · rw [redeem_insufficient hrw hbal] at h
        cases h
      · have hbal' := not_lt.mp hbal
        cases hf : findIdem db.ledger m key with
        | none =>
            rw [redeem_fresh hrw hbal' hf] at h
            simp only [Except.ok.injEq, Prod.mk.injEq] at h
            obtain ⟨hres, hdb⟩ := h
            subst hres
            subst hdb
            constructor
            · intro _
              exact ⟨reward, redeemEntry db m c reward.pointsCost key,
                redemptionRow db m c reward, rfl, rfl, rfl, rfl, rfl, rfl,
                rfl, rfl, rfl, rfl⟩
            · intro hidem
              simp at hidem
        | some e =>
            rw [redeem_replay hrw hbal' hf] at h
            simp only [Except.ok.injEq, Prod.mk.injEq] at h
            obtain ⟨hres, hdb⟩ := h
            subst hres
            subst hdb
            constructor
            · intro hidem
              simp at hidem
            · intro _
              exact ⟨rfl, rfl⟩

/-- Witness for C6: with balance 10 against the 50-point reward, redeem
fails with `INSUFFICIENT_POINTS`. -/
theorem redeem_atomic_witness :
    redeem dbPoor 0 0 1 "key-0004" = .error .insufficientPoints :=
  (redeem_atomic dbPoor 0 0 1 "key-0004").1 coffeeReward rfl (by decide)

/-- C1 counterexample: the redeem handler checks the balance *before*
the idempotency conflict handling (app.ts:1018-1025 precede 1026-1056),
so replaying a successful redeem does not always return the original
outcome: with balance 50 and a 50-point reward, the first redeem under
key "key-0001" succeeds with balance 0, and the *same-key* replay fails
with `INSUFFICIENT_POINTS` instead of reporting `idempotent = true`. -/
theorem same_key_redeem_replay_cx :
    ((redeem dbB 0 0 1 "key-0001").map
        (fun p => (p.1.balance, p.1.idempotent)) = .ok ((0 : Int), false)) ∧
    ((redeem dbB 0 0 1 "key-0001").bind
        (fun p => redeem p.2 0 0 1 "key-0001") = .error .insufficientPoints) := by
  decide

/-- C1 (amended): replaying a valid request under its original (fresh)
idempotency key leaves exactly one ledger entry for that
(merchant, idempotency key), reports `idempotent = true` and returns the
original ledger entry / redemption reference and the identical balance —
unconditionally for earn and adjust, and for redeem provided the balance
the replay observes (which already reflects the first call's deduction)
still covers the reward's cost; otherwise the replay fails with
`INSUFFICIENT_POINTS` (see the counterexample). -/
theorem same_key_replay_amended (db : DB) (m c : Nat) (amount : ℚ)
    (delta : Int) (rid : Nat) (key : String)
    (hfresh : findIdem db.ledger m key = none) :
    (∀ r1 db1, earn db m c amount key = .ok (r1, db1) →
      countIdem db1.ledger m key = 1 ∧
      ∃ r2 db2, earn db1 m c amount key = .ok (r2, db2) ∧
        r2.idempotent = true ∧ r2.ledgerEntryId = r1.ledgerEntryId ∧
        r2.balance = r1.balance ∧ db2.ledger = db1.ledger ∧
        countIdem db2.ledger m key = 1) ∧
    (∀ r1 db1, adjust db m c delta key = .ok (r1, db1) →
      countIdem db1.ledger m key = 1 ∧
      ∃ r2 db2, adjust db1 m c delta key = .ok (r2, db2) ∧
        r2.idempotent = true ∧ r2.ledgerEntryId = r1.ledgerEntryId ∧
        r2.balance = r1.balance ∧ db2.ledger = db1.ledger ∧
        countIdem db2.ledger m key = 1) ∧
    (∀ r1 db1, redeem db m c rid key = .ok (r1, db1) →
      countIdem db1.ledger m key = 1 ∧
      ∀ reward, findReward db.rewards m rid = some reward →
        reward.pointsCost ≤ balanceOf db1.ledger m c →
        ∃ r2 db2, redeem db1 m c rid key = .ok (r2, db2) ∧
          r2.idempotent = true ∧ r2.redemptionId = r1.redemptionId ∧
          r2.balance = r1.balance ∧ db2.ledger = db1.ledger ∧
          countIdem db2.ledger m key = 1) := by
  have hcount0 := countIdem_eq_zero hfresh
  refine ⟨?_, ?_, ?_⟩
  · intro r1 db1 h
    cases hr : resolveActiveRule db.rules m db.now with
    | none =>
        rw [earn_rulesMissing hr] at h
        cases h
    | some ru =>
        rw [earn_fresh hr hfresh] at h
        simp only [Except.ok.injEq, Prod.mk.injEq] at h
        obtain ⟨hres, hdb⟩ := h
        subst hres
        subst hdb
        have hcount1 : countIdem
            (earnEntry db m c (computePoints amount ru) ru.id key :: db.ledger)
            m key = 1 := by
          rw [@countIdem_cons_pos
            (earnEntry db m c (computePoints amount ru) ru.id key)
            db.ledger m key rfl rfl, hcount0]
        refine ⟨hcount1, ?_⟩
        obtain ⟨ru2, hr2⟩ := resolveActiveRule_mono hr (Nat.le_succ db.now)
        have hfound : findIdem
            (earnEntry db m c (computePoints amount ru) ru.id key :: db.ledger)
            m key = some (earnEntry db m c (computePoints amount ru) ru.id key) :=
          findIdem_cons_self rfl rfl
        refine ⟨_, _, earn_replay hr2 hfound, rfl, rfl, rfl, rfl, hcount1⟩
  · intro r1 db1 h
    rw [adjust_fresh hfresh] at h
    simp only [Except.ok.injEq, Prod.mk.injEq] at h
    obtain ⟨hres, hdb⟩ := h
    subst hres
    subst hdb
    have hcount1 : countIdem (adjustEntry db m c delta key :: db.ledger)
        m key = 1 := by
      rw [@countIdem_cons_pos (adjustEntry db m c delta key)
        db.ledger m key rfl rfl, hcount0]
    have hfound : findIdem (adjustEntry db m c delta key :: db.ledger) m key =
        some (adjustEntry db m c delta key) := findIdem_cons_self rfl rfl
    exact ⟨hcount1, _, _, adjust_replay hfound, rfl, rfl, rfl, rfl, hcount1⟩
  · intro r1 db1 h
    cases hrw : findReward db.rewards m rid with
    | none =>
        rw [redeem_notFound hrw] at h
        cases h
    | some reward =>
        by_cases hbal : balanceOf db.ledger m c < reward.pointsCost
        · rw [redeem_insufficient hrw hbal] at h
          cases h
        · have hbal' := not_lt.mp hbal
          rw [redeem_fresh hrw hbal' hfresh] at h
          simp only [Except.ok.injEq, Prod.mk.injEq] at h
          obtain ⟨hres, hdb⟩ := h
          subst hres
          subst hdb
          have hcount1 : countIdem
              (redeemEntry db m c reward.pointsCost key :: db.ledger)
              m key = 1 := by
            rw [@countIdem_cons_pos (redeemEntry db m c reward.pointsCost key)
              db.ledger m key rfl rfl, hcount0]
          refine ⟨hcount1, ?_⟩
          intro reward2 hrw2 hbal2
          injection hrw2 with hrw2'
          subst hrw2'
          have hfound : findIdem
              (redeemEntry db m c reward.pointsCost key :: db.ledger) m key =
              some (redeemEntry db m c reward.pointsCost key) :=
            findIdem_cons_self rfl rfl
          exact ⟨_, _, redeem_replay hrw hbal2 hfound, rfl, rfl, rfl, rfl,
            hcount1⟩

/-- Witness for C1 (amended): the adjust conjunct at the empty store,
with its fresh key and its concrete first response discharged. -/
theorem same_key_replay_amended_witness :
    countIdem db1W.ledger 0 "key-0003" = 1 :=
  ((same_key_replay_amended dbW 0 0 2 5 1 "key-0003" rfl).2.1
    { ledgerEntryId := 0, balance := 5, idempotent := false } db1W
    (by decide)).1

end Loyalty
